import Mathlib

/-!
Shallow embedding of the repeat node of the husky-trainer repository
(src/Repeat.cpp). Times are modelled as integers (ros::Time / ros::Duration
values), poses, twists, clouds, rigid transforms and trajectory errors are
opaque type parameters (their internal structure is never inspected by the
code under study; distances and corrections are computed by injected external
collaborators, modelled as function parameters). Publishing a message is
modelled by returning it from the function that publishes it; the idle
command published by pausePlayback is modelled by a counter in the state.
-/

/-- Playback status enum of the Repeat node: PLAY, PAUSE, ERROR. -/
inductive Status where
  | PLAY
  | PAUSE
  | ERROR
deriving DecidableEq, Repr

open Status

/-- A time-stamped velocity command (geometry_msgs::TwistStamped), the twist
payload left opaque. -/
structure TwistStamped (V : Type) where
  stamp : Int
  twist : V
deriving DecidableEq, Repr

/-- A time-stamped pose (geometry_msgs::PoseStamped), the pose payload left
opaque. -/
structure PoseStamped (P : Type) where
  stamp : Int
  pose : P
deriving DecidableEq, Repr

/-- An anchor point: a name, a reference pose and a reference point cloud
loaded from disk (class AnchorPoint of the repository). -/
structure AnchorPoint (P C : Type) where
  name : String
  position : P
  cloud : C
deriving DecidableEq, Repr

/-- The anchor point switch message (husky_trainer::AnchorPointSwitch):
a stamp and the name of the new anchor point. -/
structure APSwitchMsg where
  stamp : Int
  newAnchorPoint : String
deriving DecidableEq, Repr

/-- The two joystick buttons the Repeat node reads
(msg->buttons[controller_mappings::RB] and
msg->buttons[controller_mappings::X]). -/
structure JoyMsg where
  rb : Int
  x : Int
deriving DecidableEq, Repr

instance {V : Type} [Inhabited V] : Inhabited (TwistStamped V) := ⟨⟨0, default⟩⟩

instance {P : Type} [Inhabited P] : Inhabited (PoseStamped P) := ⟨⟨0, default⟩⟩

instance {P C : Type} [Inhabited P] [Inhabited C] : Inhabited (AnchorPoint P C) :=
  ⟨⟨"", default, default⟩⟩

/-- The mutable state of the Repeat node: the playback status, the sim clock
(baseSimTime, timePlaybackStarted), the three cursors (modelled as indices
into the command, position and anchor point sequences), and a counter of the
idle commands published by pausePlayback. -/
structure RepeatState where
  currentStatus : Status
  baseSimTime : Int
  timePlaybackStarted : Int
  commandCursor : Nat
  positionCursor : Nat
  anchorPointCursor : Nat
  idlePublished : Nat
deriving DecidableEq, Repr

/-- The cursor-advance loop shared by Repeat::commandOfTime and
Repeat::poseOfTime: while the entry at the cursor has a stamp below the
threshold and the cursor is not at the last element, step the cursor
forward. In the source the loop condition is
stamp(cursor) < threshold and cursor < sequence.end() - 1. -/
def advanceCursor (stamps : List Int) (threshold : Int) (cursor : Nat) : Nat :=
  if h : stamps.getD cursor 0 < threshold ∧ cursor < stamps.length - 1 then
    advanceCursor stamps threshold (cursor + 1)
  else
    cursor
termination_by stamps.length - cursor
decreasing_by omega

/-- Repeat::pausePlayback: publishes one idle command (modelled by the
counter) and accumulates the elapsed wall time of the current segment into
baseSimTime. -/
def pausePlayback (now : Int) (s : RepeatState) : RepeatState :=
  { s with
    idlePublished := s.idlePublished + 1
    baseSimTime := s.baseSimTime + (now - s.timePlaybackStarted) }

/-- Repeat::startPlayback: records the wall clock now as the start of the new
playback segment. -/
def startPlayback (now : Int) (s : RepeatState) : RepeatState :=
  { s with timePlaybackStarted := now }

/-- Repeat::simTime: baseSimTime plus the running segment when in PLAY,
baseSimTime otherwise. The wall clock ros::Time::now() is the parameter
now. -/
def simTime (now : Int) (s : RepeatState) : Int :=
  if s.currentStatus = PLAY then s.baseSimTime + (now - s.timePlaybackStarted)
  else s.baseSimTime

/-- Repeat::switchToStatus: the ERROR entry guard followed by the switch on
the (possibly just updated) current status. -/
def switchToStatus (desiredStatus : Status) (now : Int) (s : RepeatState) :
    RepeatState :=
  let s₁ :=
    if desiredStatus = ERROR ∧ s.currentStatus ≠ ERROR then
      { pausePlayback now s with currentStatus := ERROR }
    else s
  match s₁.currentStatus with
  | PLAY =>
    if desiredStatus = PAUSE then
      { pausePlayback now s₁ with currentStatus := PAUSE }
    else s₁
  | PAUSE =>
    if desiredStatus = PLAY then
      { startPlayback now s₁ with currentStatus := PLAY }
    else s₁
  | ERROR =>
    if desiredStatus = PAUSE then { s₁ with currentStatus := PAUSE }
    else s₁

/-- Repeat::joystickCallback: in PLAY a released RB button (value 0) requests
PAUSE, in PAUSE a pressed RB button (value 1) requests PLAY, in ERROR a
pressed X button (value 1) requests PAUSE. -/
def joystickCallback (msg : JoyMsg) (now : Int) (s : RepeatState) : RepeatState :=
  match s.currentStatus with
  | PLAY => if msg.rb = 0 then switchToStatus PAUSE now s else s
  | PAUSE => if msg.rb = 1 then switchToStatus PLAY now s else s
  | ERROR => if msg.x = 1 then switchToStatus PAUSE now s else s

/-- Repeat::commandOfTime: advance the command cursor with threshold
time + lookahead, return the twist at the resulting cursor together with the
new cursor position. -/
def commandOfTime {V : Type} [Inhabited V] (commands : List (TwistStamped V))
    (lookahead : Int) (time : Int) (cursor : Nat) : V × Nat :=
  let c := advanceCursor (commands.map (·.stamp)) (time + lookahead) cursor
  ((commands.getD c default).twist, c)

/-- Repeat::poseOfTime: advance the position cursor with threshold time,
return the pose at the resulting cursor together with the new cursor
position. -/
def poseOfTime {P : Type} [Inhabited P] (positions : List (PoseStamped P))
    (time : Int) (cursor : Nat) : P × Nat :=
  let c := advanceCursor (positions.map (·.stamp)) time cursor
  ((positions.getD c default).pose, c)

/-- Reading of the C1 claim sentence, modelled from the words of the spec for
comparison with the source: advance while the stamp of the NEXT entry is
below time + lookahead and the cursor is not at the last element. -/
def advanceCursorSpecNext (stamps : List Int) (threshold : Int) (cursor : Nat) :
    Nat :=
  if h : cursor < stamps.length - 1 ∧ stamps.getD (cursor + 1) 0 < threshold then
    advanceCursorSpecNext stamps threshold (cursor + 1)
  else
    cursor
termination_by stamps.length - cursor
decreasing_by omega

/-- Reading of commandAt modelled from the words of the spec (next-entry
boundary), for comparison with commandOfTime. -/
def commandOfTimeSpecNext {V : Type} [Inhabited V]
    (commands : List (TwistStamped V)) (lookahead : Int) (time : Int)
    (cursor : Nat) : V × Nat :=
  let c := advanceCursorSpecNext (commands.map (·.stamp)) (time + lookahead) cursor
  ((commands.getD c default).twist, c)

/-- One PLAY segment per list element: enter PLAY at wall time a, leave PLAY
at wall time b, both through Repeat::switchToStatus. -/
def playPauseCycles (segments : List (Int × Int)) (s : RepeatState) : RepeatState :=
  match segments with
  | [] => s
  | (a, b) :: rest =>
    playPauseCycles rest (switchToStatus PAUSE b (switchToStatus PLAY a s))

/-- States reached after each joystick message of a delivered sequence, each
message paired with its arrival wall time. -/
def joystickRun (msgs : List (JoyMsg × Int)) (s : RepeatState) : List RepeatState :=
  match msgs with
  | [] => []
  | (m, now) :: rest =>
    let s' := joystickCallback m now s
    s' :: joystickRun rest s'

/-- Outputs published by one iteration of the while body of Repeat::spin. -/
structure SpinOutputs (V P : Type) where
  apSwitch : Option APSwitchMsg
  publishedCommand : Option V
  publishedRefPose : P
deriving DecidableEq, Repr

/-- One iteration of the while body of Repeat::spin: anchor point tracking
with the distance to the next anchor taken as infinity when no next anchor
exists, command correction and publication when in PLAY, and reference pose
publication. The injected collaborators are the pose distance
(geo_util::customDistance) and the command corrector
(controller.correctCommand); ros::Time::now() of the cycle is the parameter
now. -/
def spinCycle {V P C : Type} [Inhabited V] [Inhabited P] [Inhabited C]
    (commands : List (TwistStamped V)) (positions : List (PoseStamped P))
    (anchorPoints : List (AnchorPoint P C)) (dist : P → P → Int)
    (correctCommand : V → V) (lookahead : Int) (now : Int) (s : RepeatState) :
    RepeatState × SpinOutputs V P :=
  let timeOfSpin := simTime now s
  let r₁ := poseOfTime positions timeOfSpin s.positionCursor
  let distanceToCurrentAnchorPoint : Int :=
    dist r₁.1 (anchorPoints.getD s.anchorPointCursor default).position
  let r₂ : WithTop Int × Nat :=
    if s.anchorPointCursor + 1 < anchorPoints.length then
      let q := poseOfTime positions timeOfSpin r₁.2
      ((dist q.1 (anchorPoints.getD (s.anchorPointCursor + 1) default).position :
          Int), q.2)
    else ((⊤ : WithTop Int), r₁.2)
  let advanced :=
    s.anchorPointCursor + 1 < anchorPoints.length ∧
      r₂.1 ≤ (distanceToCurrentAnchorPoint : WithTop Int)
  let anchorCursor' := if advanced then s.anchorPointCursor + 1 else s.anchorPointCursor
  let apMsg : Option APSwitchMsg :=
    if advanced then
      some ⟨now, (anchorPoints.getD anchorCursor' default).name⟩
    else none
  let r₃ : Option V × Nat :=
    if s.currentStatus = PLAY then
      let q := commandOfTime commands lookahead timeOfSpin s.commandCursor
      (some (correctCommand q.1), q.2)
    else (none, s.commandCursor)
  let r₄ := poseOfTime positions (simTime now s) r₂.2
  ({ s with
      positionCursor := r₄.2
      anchorPointCursor := anchorCursor'
      commandCursor := r₃.2 },
    ⟨apMsg, r₃.1, r₄.1⟩)

/-- Repeat::spin: iterate the cycle while the command cursor has not reached
the last command. The list nows supplies the wall clock time of each
potential cycle; its exhaustion models the external stop (ros::ok turning
false). Returns the final state and the number of cycles whose body ran. -/
def spin {V P C : Type} [Inhabited V] [Inhabited P] [Inhabited C]
    (commands : List (TwistStamped V)) (positions : List (PoseStamped P))
    (anchorPoints : List (AnchorPoint P C)) (dist : P → P → Int)
    (correctCommand : V → V) (lookahead : Int) (nows : List Int)
    (s : RepeatState) : RepeatState × Nat :=
  match nows with
  | [] => (s, 0)
  | now :: rest =>
    if s.commandCursor < commands.length - 1 then
      let s' :=
        (spinCycle commands positions anchorPoints dist correctCommand lookahead
          now s).1
      let r := spin commands positions anchorPoints dist correctCommand lookahead
        rest s'
      (r.1, r.2 + 1)
    else (s, 0)

/-- Outputs of one run of Repeat::updateError: the request handed to the
point matching service if it was invoked, the error forwarded to
controller.updateError, the error published on the error reporting topic,
whether the cloud was dropped because the service call lock was busy, and
whether the lock is still held when the call returns. -/
structure UpdateErrorOutcome (C E : Type) where
  requestMade : Option (C × C)
  controllerErrorUpdate : Option E
  errorReported : Option E
  droppedBusy : Bool
  lockHeldAtReturn : Bool
deriving DecidableEq, Repr

/-- Repeat::updateError: build the transformed reading from the pose at sim
time, the current anchor point position and the cached lidar-to-robot
transform, then under the non-blocking service call lock invoke the point
matching service; on success forward the derived control error to the
controller and to the error reporting topic, on failure switch to ERROR; the
lock is released before returning. The injected collaborators are
geo_util::transFromPoseToPose (transFromPoseToPose), composition with the
cached tFromLidarToRobot (composeWithLidar), the point cloud transformation
(applyTransform), the service (icpCall, none meaning the call failed) and
pointmatching_tools::controlErrorOfTransformation (controlErrorOfTransformation).
The flag lockHeld tells whether another in-flight call holds the lock. -/
def updateError {P C T E R : Type} [Inhabited P] [Inhabited C]
    (positions : List (PoseStamped P)) (anchorPoints : List (AnchorPoint P C))
    (transFromPoseToPose : P → P → T) (composeWithLidar : T → T)
    (applyTransform : T → C → C) (icpCall : C → C → Option R)
    (controlErrorOfTransformation : R → E) (reading : C) (lockHeld : Bool)
    (now : Int) (s : RepeatState) : RepeatState × UpdateErrorOutcome C E :=
  let r := poseOfTime positions (simTime now s) s.positionCursor
  let s₁ := { s with positionCursor := r.2 }
  let tFromReadingToAnchor :=
    transFromPoseToPose r.1 (anchorPoints.getD s.anchorPointCursor default).position
  let eigenTransform := composeWithLidar tFromReadingToAnchor
  let transformedReadingCloudMsg := applyTransform eigenTransform reading
  let request : C × C :=
    (transformedReadingCloudMsg,
      (anchorPoints.getD s.anchorPointCursor default).cloud)
  if lockHeld then
    (s₁, ⟨none, none, none, true, lockHeld⟩)
  else
    match icpCall request.1 request.2 with
    | some response =>
      let rawError := controlErrorOfTransformation response
      (s₁, ⟨some request, some rawError, some rawError, false, false⟩)
    | none =>
      (switchToStatus ERROR now s₁, ⟨some request, none, none, false, false⟩)

/-- Concrete command log used to exercise the definitions. -/
def demoCommands : List (TwistStamped Int) := [⟨0, 10⟩, ⟨10, 20⟩]

/-- Concrete three-entry command log (stamps 0, 1, 2). -/
def demoCommands3 : List (TwistStamped Int) := [⟨0, 10⟩, ⟨1, 20⟩, ⟨2, 30⟩]

/-- Concrete position log used to exercise the definitions. -/
def demoPositions : List (PoseStamped Int) := [⟨0, 100⟩, ⟨10, 200⟩]

/-- Concrete anchor point log used to exercise the definitions. -/
def demoAnchors : List (AnchorPoint Int Int) := [⟨"a0", 100, 7⟩, ⟨"a1", 200, 8⟩]

/-- Concrete pose distance used to exercise the definitions. -/
def demoDist : Int → Int → Int := fun p q => (p - q) * (p - q)

/-- Concrete paused state with all cursors at the start. -/
def demoState : RepeatState := ⟨PAUSE, 0, 0, 0, 0, 0, 0⟩

/-- Concrete playing state with all cursors at the start. -/
def demoPlayState : RepeatState := ⟨PLAY, 0, 0, 0, 0, 0, 0⟩

theorem advanceCursor_step (stamps : List Int) (T : Int) (c : Nat)
    (h : stamps.getD c 0 < T ∧ c < stamps.length - 1) :
    advanceCursor stamps T c = advanceCursor stamps T (c + 1) := by
  rw [advanceCursor, dif_pos h]

theorem advanceCursor_halt (stamps : List Int) (T : Int) (c : Nat)
    (h : ¬(stamps.getD c 0 < T ∧ c < stamps.length - 1)) :
    advanceCursor stamps T c = c := by
  rw [advanceCursor, dif_neg h]

theorem le_advanceCursor (stamps : List Int) (T : Int) (c : Nat) :
    c ≤ advanceCursor stamps T c := by
  have key : ∀ n c, stamps.length - c ≤ n → c ≤ advanceCursor stamps T c := by
    intro n
    induction n with
    | zero =>
      intro c hc
      rw [advanceCursor]
      split
      · omega
      · exact Nat.le_refl c
    | succ n ih =>
      intro c hc
      rw [advanceCursor]
      split
      · rename_i h
        exact Nat.le_trans (Nat.le_succ c) (ih (c + 1) (by omega))
      · exact Nat.le_refl c
  exact key (stamps.length - c) c (Nat.le_refl _)

theorem advanceCursor_le_last (stamps : List Int) (T : Int) (c : Nat)
    (hc : c ≤ stamps.length - 1) : advanceCursor stamps T c ≤ stamps.length - 1 := by
  have key : ∀ n c, stamps.length - c ≤ n → c ≤ stamps.length - 1 →
      advanceCursor stamps T c ≤ stamps.length - 1 := by
    intro n
    induction n with
    | zero =>
      intro c hc hlast
      rw [advanceCursor]
      split
      · omega
      · exact hlast
    | succ n ih =>
      intro c hc hlast
      rw [advanceCursor]
      split
      · rename_i h
        exact ih (c + 1) (by omega) (by omega)
      · exact hlast
  exact key (stamps.length - c) c (Nat.le_refl _) hc

theorem advanceCursor_stop (stamps : List Int) (T : Int) (c : Nat) :
    ¬(stamps.getD (advanceCursor stamps T c) 0 < T ∧
      advanceCursor stamps T c < stamps.length - 1) := by
  have key : ∀ n c, stamps.length - c ≤ n →
      ¬(stamps.getD (advanceCursor stamps T c) 0 < T ∧
        advanceCursor stamps T c < stamps.length - 1) := by
    intro n
    induction n with
    | zero =>
      intro c hc
      rw [advanceCursor]
      split
      · omega
      · rename_i h
        exact h
    | succ n ih =>
      intro c hc
      rw [advanceCursor]
      split
      · rename_i h
        exact ih (c + 1) (by omega)
      · rename_i h
        exact h
  exact key (stamps.length - c) c (Nat.le_refl _)

theorem advanceCursor_passed_lt (stamps : List Int) (T : Int) (c : Nat) :
    ∀ i, c ≤ i → i < advanceCursor stamps T c → stamps.getD i 0 < T := by
  have key : ∀ n c, stamps.length - c ≤ n →
      ∀ i, c ≤ i → i < advanceCursor stamps T c → stamps.getD i 0 < T := by
    intro n
    induction n with
    | zero =>
      intro c hc i hci hi
      rw [advanceCursor] at hi
      split at hi
      · omega
      · omega
    | succ n ih =>
      intro c hc i hci hi
      rw [advanceCursor] at hi
      split at hi
      · rename_i h
        rcases Nat.eq_or_lt_of_le hci with rfl | hlt
        · exact h.1
        · exact ih (c + 1) (by omega) i hlt hi
      · omega
  exact key (stamps.length - c) c (Nat.le_refl _)

theorem advanceCursor_mono_threshold (stamps : List Int) (T₁ T₂ : Int) (c : Nat)
    (hT : T₁ ≤ T₂) : advanceCursor stamps T₁ c ≤ advanceCursor stamps T₂ c := by
  have key : ∀ n c, stamps.length - c ≤ n →
      advanceCursor stamps T₁ c ≤ advanceCursor stamps T₂ c := by
    intro n
    induction n with
    | zero =>
      intro c hc
      rw [advanceCursor]
      split
      · omega
      · exact le_advanceCursor stamps T₂ c
    | succ n ih =>
      intro c hc
      by_cases h : stamps.getD c 0 < T₁ ∧ c < stamps.length - 1
      · have h₂ : stamps.getD c 0 < T₂ ∧ c < stamps.length - 1 :=
          ⟨Int.lt_of_lt_of_le h.1 hT, h.2⟩
        rw [advanceCursor_step stamps T₁ c h, advanceCursor_step stamps T₂ c h₂]
        exact ih (c + 1) (by omega)
      · rw [advanceCursor_halt stamps T₁ c h]
        exact le_advanceCursor stamps T₂ c
  exact key (stamps.length - c) c (Nat.le_refl _)

theorem advanceCursor_idem (stamps : List Int) (T : Int) (c : Nat) :
    advanceCursor stamps T (advanceCursor stamps T c) = advanceCursor stamps T c := by
  conv_lhs => rw [advanceCursor]
  rw [dif_neg (advanceCursor_stop stamps T c)]


/-- Concrete single-anchor log used to exercise the definitions. -/
def demoAnchors1 : List (AnchorPoint Int Int) := [⟨"a0", 100, 7⟩]

/-- Concrete constant pose distance used to exercise the definitions. -/
def demoDistZero : Int → Int → Int := fun _ _ => 0

/-- Concrete pose-to-pose transform used to exercise updateError. -/
def demoTrans : Int → Int → Int := fun p q => p + q

/-- Concrete composition with the cached lidar transform used to exercise
updateError. -/
def demoCompose : Int → Int := fun t => t

/-- Concrete cloud transformation used to exercise updateError. -/
def demoApply : Int → Int → Int := fun t c => t + c

/-- Concrete always-successful point matching service. -/
def demoIcpOk : Int → Int → Option Int := fun _ _ => some 42

/-- Concrete always-failing point matching service. -/
def demoIcpFail : Int → Int → Option Int := fun _ _ => none

/-- Concrete control error derivation used to exercise updateError. -/
def demoCtrlErr : Int → Int := fun r => r

theorem poseOfTime_idem {P : Type} [Inhabited P] (positions : List (PoseStamped P))
    (t : Int) (c : Nat) :
    poseOfTime positions t (poseOfTime positions t c).2 = poseOfTime positions t c := by
  simp only [poseOfTime, advanceCursor_idem]

theorem ite_nat_le_succ (C : Prop) [Decidable C] (a : Nat) :
    (if C then a + 1 else a) ≤ a + 1 := by
  split <;> omega

theorem ite_nat_lt (C : Prop) [Decidable C] (a n : Nat) (h1 : C → a + 1 < n)
    (h2 : a < n) : (if C then a + 1 else a) < n := by
  split
  · rename_i hc
    exact h1 hc
  · exact h2

theorem ite_and_false_eq {α : Type} (A B B' : Prop) [Decidable (A ∧ B)]
    [Decidable (A ∧ B')] (hA : ¬A) (x y : α) :
    (if A ∧ B then x else y) = if A ∧ B' then x else y := by
  rw [if_neg (fun h => hA h.1), if_neg (fun h => hA h.1)]

theorem playPauseCycles_additive (segments : List (Int × Int)) :
    ∀ s : RepeatState, s.currentStatus = PAUSE →
      (playPauseCycles segments s).currentStatus = PAUSE ∧
      (playPauseCycles segments s).baseSimTime =
        s.baseSimTime + (segments.map (fun p => p.2 - p.1)).sum := by
  induction segments with
  | nil =>
    intro s hs
    simp [playPauseCycles, hs]
  | cons seg rest ih =>
    intro s hs
    obtain ⟨a, b⟩ := seg
    obtain ⟨st, b₀, tp, cc, pc, ac, ip⟩ := s
    obtain rfl : st = PAUSE := hs
    have h1 : switchToStatus PLAY a ⟨PAUSE, b₀, tp, cc, pc, ac, ip⟩ =
        ⟨PLAY, b₀, a, cc, pc, ac, ip⟩ := by
      simp [switchToStatus, startPlayback, pausePlayback]
    have h2 : switchToStatus PAUSE b ⟨PLAY, b₀, a, cc, pc, ac, ip⟩ =
        ⟨PAUSE, b₀ + (b - a), a, cc, pc, ac, ip + 1⟩ := by
      simp [switchToStatus, startPlayback, pausePlayback]
    rw [playPauseCycles, h1, h2]
    obtain ⟨hst, hbase⟩ := ih ⟨PAUSE, b₀ + (b - a), a, cc, pc, ac, ip + 1⟩ rfl
    refine ⟨hst, ?_⟩
    rw [hbase]
    simp
    omega

/-- C3: a request to switch to ERROR from a non-ERROR state first runs
pausePlayback (publishing exactly one idle command and accumulating the
elapsed segment into baseSimTime) and then sets the status to ERROR; a
request to switch to ERROR while already in ERROR leaves the state
untouched. -/
theorem C3_error_entry (s : RepeatState) (now : Int) :
    (s.currentStatus ≠ ERROR →
      switchToStatus ERROR now s =
        { s with
            currentStatus := ERROR
            baseSimTime := s.baseSimTime + (now - s.timePlaybackStarted)
            idlePublished := s.idlePublished + 1 }) ∧
    (s.currentStatus = ERROR → switchToStatus ERROR now s = s) := by
  obtain ⟨st, b₀, tp, cc, pc, ac, ip⟩ := s
  cases st <;> simp [switchToStatus, pausePlayback, startPlayback]

theorem C3_error_entry_witness :
    (demoPlayState.currentStatus ≠ ERROR ∧
      switchToStatus ERROR 7 demoPlayState =
        { demoPlayState with
            currentStatus := ERROR
            baseSimTime := demoPlayState.baseSimTime + (7 - demoPlayState.timePlaybackStarted)
            idlePublished := demoPlayState.idlePublished + 1 }) ∧
    ((⟨ERROR, 0, 0, 0, 0, 0, 0⟩ : RepeatState).currentStatus = ERROR ∧
      switchToStatus ERROR 7 ⟨ERROR, 0, 0, 0, 0, 0, 0⟩ = ⟨ERROR, 0, 0, 0, 0, 0, 0⟩) :=
  ⟨⟨by decide, (C3_error_entry demoPlayState 7).1 (by decide)⟩,
    ⟨rfl, (C3_error_entry ⟨ERROR, 0, 0, 0, 0, 0, 0⟩ 7).2 rfl⟩⟩

/-- C5: the manual-input state machine: from PAUSE a resume input (RB
pressed) goes to PLAY through startPlayback; from PLAY a pause input (RB
released) goes to PAUSE through pausePlayback; from ERROR an acknowledge
input (X pressed) goes to PAUSE without running pausePlayback again; every
other delivered input leaves the state entirely unchanged. -/
theorem C5_manual_transitions (s : RepeatState) (m : JoyMsg) (now : Int) :
    (s.currentStatus = PAUSE → m.rb = 1 →
      joystickCallback m now s =
        { s with currentStatus := PLAY, timePlaybackStarted := now }) ∧
    (s.currentStatus = PAUSE → m.rb ≠ 1 → joystickCallback m now s = s) ∧
    (s.currentStatus = PLAY → m.rb = 0 →
      joystickCallback m now s =
        { s with
            currentStatus := PAUSE
            baseSimTime := s.baseSimTime + (now - s.timePlaybackStarted)
            idlePublished := s.idlePublished + 1 }) ∧
    (s.currentStatus = PLAY → m.rb ≠ 0 → joystickCallback m now s = s) ∧
    (s.currentStatus = ERROR → m.x = 1 →
      joystickCallback m now s = { s with currentStatus := PAUSE }) ∧
    (s.currentStatus = ERROR → m.x ≠ 1 → joystickCallback m now s = s) := by
  obtain ⟨st, b₀, tp, cc, pc, ac, ip⟩ := s
  obtain ⟨rb, xb⟩ := m
  refine ⟨?_, ?_, ?_, ?_, ?_, ?_⟩ <;> intro h1 h2 <;>
    (try subst h1) <;> (try subst h2) <;>
    simp_all [joystickCallback, switchToStatus, pausePlayback, startPlayback]

theorem C5_manual_transitions_witness :
    (demoState.currentStatus = PAUSE ∧
      joystickCallback ⟨1, 0⟩ 4 demoState =
        { demoState with currentStatus := PLAY, timePlaybackStarted := 4 }) ∧
    (demoPlayState.currentStatus = PLAY ∧
      joystickCallback ⟨0, 0⟩ 4 demoPlayState =
        { demoPlayState with
            currentStatus := PAUSE
            baseSimTime := demoPlayState.baseSimTime + (4 - demoPlayState.timePlaybackStarted)
            idlePublished := demoPlayState.idlePublished + 1 }) ∧
    ((⟨ERROR, 0, 0, 0, 0, 0, 0⟩ : RepeatState).currentStatus = ERROR ∧
      joystickCallback ⟨1, 0⟩ 4 ⟨ERROR, 0, 0, 0, 0, 0, 0⟩ = ⟨ERROR, 0, 0, 0, 0, 0, 0⟩) :=
  ⟨⟨rfl, (C5_manual_transitions demoState ⟨1, 0⟩ 4).1 rfl rfl⟩,
    ⟨rfl, (C5_manual_transitions demoPlayState ⟨0, 0⟩ 4).2.2.1 rfl rfl⟩,
    ⟨rfl, (C5_manual_transitions ⟨ERROR, 0, 0, 0, 0, 0, 0⟩ ⟨1, 0⟩ 4).2.2.2.2.2 rfl
      (by decide)⟩⟩

theorem joystickRun_play_iff (msgs : List (JoyMsg × Int)) :
    ∀ s : RepeatState, s.currentStatus = PLAY →
      (∀ p ∈ msgs, p.1.rb = 0 ∨ p.1.rb = 1) →
      ((∀ st ∈ joystickRun msgs s, st.currentStatus = PLAY) ↔
        ∀ p ∈ msgs, p.1.rb = 1) := by
  induction msgs with
  | nil =>
    intro s hs hvals
    simp [joystickRun]
  | cons q rest ih =>
    intro s hs hvals
    obtain ⟨m, now⟩ := q
    by_cases hrb : m.rb = 0
    · have hs' : (joystickCallback m now s).currentStatus = PAUSE := by
        obtain ⟨st, b₀, tp, cc, pc, ac, ip⟩ := s
        obtain rfl : st = PLAY := hs
        simp [joystickCallback, switchToStatus, pausePlayback, hrb]
      apply iff_of_false
      · intro hall
        have hmem := hall (joystickCallback m now s) (List.mem_cons_self _ _)
        rw [hs'] at hmem
        exact Status.noConfusion hmem
      · intro hall
        have hm := hall (m, now) (List.mem_cons_self _ _)
        rw [hrb] at hm
        exact absurd hm (by decide)
    · have hs' : joystickCallback m now s = s := by
        obtain ⟨st, b₀, tp, cc, pc, ac, ip⟩ := s
        obtain rfl : st = PLAY := hs
        simp [joystickCallback, hrb]
      have hm1 : m.rb = 1 := (hvals (m, now) (List.mem_cons_self _ _)).resolve_left hrb
      have hrest := ih s hs (fun p hp => hvals p (List.mem_cons_of_mem _ hp))
      simp only [joystickRun, hs', List.forall_mem_cons]
      simp [hs, hm1, hrest]

/-- C10: the pause input is level triggered: in PLAY every delivered
joystick message with RB value 0 moves the machine to PAUSE, so the state
after every message of a delivered sequence stays PLAY exactly when RB is
held (value 1) in every message; in PAUSE an RB value of 1 moves back to
PLAY. -/
theorem C10_pause_level_triggered :
    (∀ (s : RepeatState) (m : JoyMsg) (now : Int), s.currentStatus = PLAY →
      ((joystickCallback m now s).currentStatus = PAUSE ↔ m.rb = 0)) ∧
    (∀ (s : RepeatState) (m : JoyMsg) (now : Int), s.currentStatus = PAUSE →
      ((joystickCallback m now s).currentStatus = PLAY ↔ m.rb = 1)) ∧
    (∀ (msgs : List (JoyMsg × Int)) (s : RepeatState), s.currentStatus = PLAY →
      (∀ p ∈ msgs, p.1.rb = 0 ∨ p.1.rb = 1) →
      ((∀ st ∈ joystickRun msgs s, st.currentStatus = PLAY) ↔
        ∀ p ∈ msgs, p.1.rb = 1)) := by
  refine ⟨?_, ?_, fun msgs s hs hvals => joystickRun_play_iff msgs s hs hvals⟩
  · intro s m now hs
    obtain ⟨st, b₀, tp, cc, pc, ac, ip⟩ := s
    obtain rfl : st = PLAY := hs
    by_cases hrb : m.rb = 0 <;>
      simp [joystickCallback, switchToStatus, pausePlayback, hrb]
  · intro s m now hs
    obtain ⟨st, b₀, tp, cc, pc, ac, ip⟩ := s
    obtain rfl : st = PAUSE := hs
    by_cases hrb : m.rb = 1 <;>
      simp [joystickCallback, switchToStatus, startPlayback, pausePlayback, hrb]

theorem C10_pause_level_triggered_witness :
    ((joystickCallback ⟨0, 0⟩ 3 demoPlayState).currentStatus = PAUSE ↔ (0 : Int) = 0) ∧
    ((joystickCallback ⟨1, 0⟩ 3 demoState).currentStatus = PLAY ↔ (1 : Int) = 1) ∧
    ((∀ st ∈ joystickRun [(⟨1, 0⟩, 5), (⟨1, 0⟩, 6)] demoPlayState,
        st.currentStatus = PLAY) ↔
      ∀ p ∈ [((⟨1, 0⟩ : JoyMsg), (5 : Int)), (⟨1, 0⟩, 6)], p.1.rb = 1) :=
  ⟨C10_pause_level_triggered.1 demoPlayState ⟨0, 0⟩ 3 rfl,
    C10_pause_level_triggered.2.1 demoState ⟨1, 0⟩ 3 rfl,
    C10_pause_level_triggered.2.2 [(⟨1, 0⟩, 5), (⟨1, 0⟩, 6)] demoPlayState rfl
      (by decide)⟩

/-- C2 counterexample: requesting ERROR from PAUSE (wall time 25, segment
start 10) runs pausePlayback and mutates baseSimTime from 0 to 15, although
the transition is neither a PLAY to PAUSE nor a PAUSE to PLAY transition; so
the sim clock state is not mutated only on those two transitions. -/
theorem C2_counterexample :
    (⟨PAUSE, 0, 10, 0, 0, 0, 0⟩ : RepeatState).currentStatus = PAUSE ∧
    (switchToStatus ERROR 25 ⟨PAUSE, 0, 10, 0, 0, 0, 0⟩).currentStatus = ERROR ∧
    (switchToStatus ERROR 25 ⟨PAUSE, 0, 10, 0, 0, 0, 0⟩).baseSimTime = 15 ∧
    (⟨PAUSE, 0, 10, 0, 0, 0, 0⟩ : RepeatState).baseSimTime = 0 := by decide

/-- C2 (amended): the sim clock pair (baseSimTime, timePlaybackStarted) is
mutated only on a request that moves a non-ERROR state to ERROR and on a
PLAY to PAUSE transition (both accumulate now - timePlaybackStarted into
baseSimTime) and on a PAUSE to PLAY transition (recording the segment
start); simTime equals baseSimTime outside PLAY and
baseSimTime + (now - timePlaybackStarted) in PLAY; every alternating
sequence of PLAY/PAUSE transitions accumulates the wall time of its PLAY
segments additively into simTime. -/
theorem C2_simclock (d : Status) (now : Int) (s : RepeatState) :
    (simTime now s =
      if s.currentStatus = PLAY then s.baseSimTime + (now - s.timePlaybackStarted)
      else s.baseSimTime) ∧
    ((d = ERROR ∧ s.currentStatus ≠ ERROR) ∨ (s.currentStatus = PLAY ∧ d = PAUSE) →
      (switchToStatus d now s).baseSimTime =
        s.baseSimTime + (now - s.timePlaybackStarted) ∧
      (switchToStatus d now s).timePlaybackStarted = s.timePlaybackStarted) ∧
    (s.currentStatus = PAUSE ∧ d = PLAY →
      (switchToStatus d now s).baseSimTime = s.baseSimTime ∧
      (switchToStatus d now s).timePlaybackStarted = now) ∧
    (¬(d = ERROR ∧ s.currentStatus ≠ ERROR) → ¬(s.currentStatus = PLAY ∧ d = PAUSE) →
      ¬(s.currentStatus = PAUSE ∧ d = PLAY) →
      (switchToStatus d now s).baseSimTime = s.baseSimTime ∧
      (switchToStatus d now s).timePlaybackStarted = s.timePlaybackStarted) ∧
    (∀ segments : List (Int × Int), s.currentStatus = PAUSE →
      (playPauseCycles segments s).currentStatus = PAUSE ∧
      simTime now (playPauseCycles segments s) =
        s.baseSimTime + (segments.map (fun p => p.2 - p.1)).sum) := by
  refine ⟨rfl, ?_, ?_, ?_, ?_⟩
  · obtain ⟨st, b₀, tp, cc, pc, ac, ip⟩ := s
    cases st <;> cases d <;>
      simp [switchToStatus, pausePlayback, startPlayback]
  · obtain ⟨st, b₀, tp, cc, pc, ac, ip⟩ := s
    cases st <;> cases d <;>
      simp [switchToStatus, pausePlayback, startPlayback]
  · obtain ⟨st, b₀, tp, cc, pc, ac, ip⟩ := s
    cases st <;> cases d <;>
      simp [switchToStatus, pausePlayback, startPlayback]
  · intro segments hs
    obtain ⟨h1, h2⟩ := playPauseCycles_additive segments s hs
    exact ⟨h1, by simp [simTime, h1, h2]⟩

theorem C2_simclock_witness :
    ((switchToStatus ERROR 9 demoPlayState).baseSimTime =
        demoPlayState.baseSimTime + (9 - demoPlayState.timePlaybackStarted) ∧
      (switchToStatus ERROR 9 demoPlayState).timePlaybackStarted =
        demoPlayState.timePlaybackStarted) ∧
    ((playPauseCycles [(2, 5), (7, 11)] demoState).currentStatus = PAUSE ∧
      simTime 0 (playPauseCycles [(2, 5), (7, 11)] demoState) =
        demoState.baseSimTime +
          (([(2, 5), (7, 11)] : List (Int × Int)).map (fun p => p.2 - p.1)).sum) :=
  ⟨(C2_simclock ERROR 9 demoPlayState).2.1 (Or.inl ⟨rfl, by decide⟩),
    (C2_simclock PLAY 0 demoState).2.2.2.2 [(2, 5), (7, 11)] rfl⟩

/-- C1 counterexample: with commands stamped 0 and 10 and threshold
time + lookahead = 5, the source loop advances off entry 0 because the
CURRENT stamp 0 is below 5 and returns the twist of entry 1, while the
claimed boundary (advance while the NEXT stamp is below 5) keeps the cursor
at entry 0 and returns its twist: the two disagree at this input. -/
theorem C1_counterexample :
    (commandOfTime demoCommands 0 5 0).1 = 20 ∧
    (commandOfTime demoCommands 0 5 0).2 = 1 ∧
    (commandOfTimeSpecNext demoCommands 0 5 0).1 = 10 ∧
    (commandOfTimeSpecNext demoCommands 0 5 0).2 = 0 ∧
    (commandOfTime demoCommands 0 5 0).1 ≠ (commandOfTimeSpecNext demoCommands 0 5 0).1 := by
  have h : advanceCursor (demoCommands.map (·.stamp)) (5 + 0) 0 = 1 := by
    rw [advanceCursor_step _ _ _ (by decide)]
    exact advanceCursor_halt _ _ _ (by decide)
  have h' : advanceCursorSpecNext (demoCommands.map (·.stamp)) (5 + 0) 0 = 0 := by
    rw [advanceCursorSpecNext, dif_neg (by decide)]
  refine ⟨?_, ?_, ?_, ?_, ?_⟩ <;>
    simp only [commandOfTime, commandOfTimeSpecNext, h, h'] <;> decide

/-- C1 (amended): commandOfTime advances the command cursor forward while
the CURRENT entry has a stamp below time + lookahead and the cursor is not
at the last element, and returns the twist at the resulting cursor: the
cursor never regresses, stays inside the sequence, every entry it stepped
off has a stamp below time + lookahead, and when it did not reach the last
element the entry at the final cursor has a stamp at or above
time + lookahead. -/
theorem C1_command_boundary {V : Type} [Inhabited V]
    (commands : List (TwistStamped V)) (lookahead time : Int) (cursor : Nat)
    (hc : cursor < commands.length) :
    cursor ≤ (commandOfTime commands lookahead time cursor).2 ∧
    (commandOfTime commands lookahead time cursor).2 < commands.length ∧
    (∀ i, cursor ≤ i → i < (commandOfTime commands lookahead time cursor).2 →
      (commands.map (·.stamp)).getD i 0 < time + lookahead) ∧
    ((commandOfTime commands lookahead time cursor).2 < commands.length - 1 →
      ¬((commands.map (·.stamp)).getD ((commandOfTime commands lookahead time cursor).2) 0 <
          time + lookahead)) ∧
    (commandOfTime commands lookahead time cursor).1 =
      (commands.getD ((commandOfTime commands lookahead time cursor).2) default).twist := by
  have hlen : (commands.map (·.stamp)).length = commands.length := List.length_map _ _
  refine ⟨le_advanceCursor _ _ _, ?_, ?_, ?_, rfl⟩
  · have hle := advanceCursor_le_last (commands.map (·.stamp)) (time + lookahead) cursor
      (by omega)
    show advanceCursor (commands.map (·.stamp)) (time + lookahead) cursor < commands.length
    omega
  · exact advanceCursor_passed_lt _ _ _
  · have hrfl : (commandOfTime commands lookahead time cursor).2 =
        advanceCursor (commands.map (·.stamp)) (time + lookahead) cursor := rfl
    rw [hrfl]
    intro hlt hstamp
    exact advanceCursor_stop (commands.map (·.stamp)) (time + lookahead) cursor
      ⟨hstamp, by omega⟩

theorem C1_command_boundary_witness :
    0 < demoCommands.length ∧
    (0 ≤ (commandOfTime demoCommands 0 5 0).2 ∧
      (commandOfTime demoCommands 0 5 0).2 < demoCommands.length ∧
      (∀ i, 0 ≤ i → i < (commandOfTime demoCommands 0 5 0).2 →
        (demoCommands.map (·.stamp)).getD i 0 < 5 + 0) ∧
      ((commandOfTime demoCommands 0 5 0).2 < demoCommands.length - 1 →
        ¬((demoCommands.map (·.stamp)).getD ((commandOfTime demoCommands 0 5 0).2) 0 <
            5 + 0)) ∧
      (commandOfTime demoCommands 0 5 0).1 =
        (demoCommands.getD ((commandOfTime demoCommands 0 5 0).2) default).twist) :=
  ⟨by decide, C1_command_boundary demoCommands 0 5 0 (by decide)⟩

/-- C7: the command and pose cursors never move backward, are monotone in
the query time both from a common start and across back-to-back calls, and
never advance past the last element of their sequences, whatever the query
time. -/
theorem C7_cursors_monotone {V P : Type} [Inhabited V] [Inhabited P]
    (commands : List (TwistStamped V)) (positions : List (PoseStamped P))
    (lookahead t₁ t₂ : Int) (c : Nat) (ht : t₁ ≤ t₂) :
    (c ≤ (commandOfTime commands lookahead t₁ c).2 ∧
      c ≤ (poseOfTime positions t₁ c).2) ∧
    ((commandOfTime commands lookahead t₁ c).2 ≤
        (commandOfTime commands lookahead t₂ c).2 ∧
      (poseOfTime positions t₁ c).2 ≤ (poseOfTime positions t₂ c).2) ∧
    ((commandOfTime commands lookahead t₁ c).2 ≤
        (commandOfTime commands lookahead t₂
          ((commandOfTime commands lookahead t₁ c).2)).2 ∧
      (poseOfTime positions t₁ c).2 ≤
        (poseOfTime positions t₂ ((poseOfTime positions t₁ c).2)).2) ∧
    ((c ≤ commands.length - 1 →
        (commandOfTime commands lookahead t₁ c).2 ≤ commands.length - 1) ∧
      (c ≤ positions.length - 1 →
        (poseOfTime positions t₁ c).2 ≤ positions.length - 1)) := by
  have hlc : (commands.map (·.stamp)).length = commands.length := List.length_map _ _
  have hlp : (positions.map (·.stamp)).length = positions.length := List.length_map _ _
  refine ⟨⟨le_advanceCursor _ _ _, le_advanceCursor _ _ _⟩, ⟨?_, ?_⟩,
    ⟨le_advanceCursor _ _ _, le_advanceCursor _ _ _⟩, ?_, ?_⟩
  · exact advanceCursor_mono_threshold _ (t₁ + lookahead) (t₂ + lookahead) c (by omega)
  · exact advanceCursor_mono_threshold _ t₁ t₂ c ht
  · intro hcl
    have := advanceCursor_le_last (commands.map (·.stamp)) (t₁ + lookahead) c (by omega)
    show advanceCursor (commands.map (·.stamp)) (t₁ + lookahead) c ≤ commands.length - 1
    omega
  · intro hcl
    have := advanceCursor_le_last (positions.map (·.stamp)) t₁ c (by omega)
    show advanceCursor (positions.map (·.stamp)) t₁ c ≤ positions.length - 1
    omega

theorem C7_cursors_monotone_witness :
    (1 : Int) ≤ 20 ∧
    ((0 ≤ (commandOfTime demoCommands 0 1 0).2 ∧
        0 ≤ (poseOfTime demoPositions 1 0).2) ∧
      ((commandOfTime demoCommands 0 1 0).2 ≤ (commandOfTime demoCommands 0 20 0).2 ∧
        (poseOfTime demoPositions 1 0).2 ≤ (poseOfTime demoPositions 20 0).2) ∧
      ((commandOfTime demoCommands 0 1 0).2 ≤
          (commandOfTime demoCommands 0 20 ((commandOfTime demoCommands 0 1 0).2)).2 ∧
        (poseOfTime demoPositions 1 0).2 ≤
          (poseOfTime demoPositions 20 ((poseOfTime demoPositions 1 0).2)).2) ∧
      ((0 ≤ demoCommands.length - 1 →
          (commandOfTime demoCommands 0 1 0).2 ≤ demoCommands.length - 1) ∧
        (0 ≤ demoPositions.length - 1 →
          (poseOfTime demoPositions 1 0).2 ≤ demoPositions.length - 1))) :=
  ⟨by decide, C7_cursors_monotone demoCommands demoPositions 0 1 20 0 (by decide)⟩

/-- C9: the main loop body runs only while the command cursor has not
reached the last recorded command: a state whose command cursor is at or
past the last element terminates the loop at once with zero body
executions, an empty command sequence terminates it at once for every
state, and the number of executed cycles never exceeds the external stop
budget. -/
theorem C9_spin_termination {V P C : Type} [Inhabited V] [Inhabited P] [Inhabited C]
    (commands : List (TwistStamped V)) (positions : List (PoseStamped P))
    (anchorPoints : List (AnchorPoint P C)) (dist : P → P → Int)
    (correctCommand : V → V) (lookahead : Int) :
    (∀ (nows : List Int) (s : RepeatState),
      ¬(s.commandCursor < commands.length - 1) →
      spin commands positions anchorPoints dist correctCommand lookahead nows s =
        (s, 0)) ∧
    (commands = [] → ∀ (nows : List Int) (s : RepeatState),
      spin commands positions anchorPoints dist correctCommand lookahead nows s =
        (s, 0)) ∧
    (∀ (nows : List Int) (s : RepeatState),
      (spin commands positions anchorPoints dist correctCommand lookahead nows s).2 ≤
        nows.length) := by
  have hstop : ∀ (nows : List Int) (s : RepeatState),
      ¬(s.commandCursor < commands.length - 1) →
      spin commands positions anchorPoints dist correctCommand lookahead nows s =
        (s, 0) := by
    intro nows s h
    cases nows with
    | nil => rfl
    | cons now rest => simp [spin, h]
  refine ⟨hstop, ?_, ?_⟩
  · intro hemp nows s
    apply hstop
    subst hemp
    simp
  · intro nows
    induction nows with
    | nil => intro s; simp [spin]
    | cons now rest ih =>
      intro s
      by_cases h : s.commandCursor < commands.length - 1
      · have hr := ih
          ((spinCycle commands positions anchorPoints dist correctCommand lookahead
            now s).1)
        simp only [spin, if_pos h, List.length_cons]
        omega
      · simp [spin, h]

theorem C9_spin_termination_witness :
    (¬((⟨PAUSE, 0, 0, 1, 0, 0, 0⟩ : RepeatState).commandCursor <
        demoCommands.length - 1) ∧
      spin demoCommands demoPositions demoAnchors demoDist id 0 [3]
          ⟨PAUSE, 0, 0, 1, 0, 0, 0⟩ =
        (⟨PAUSE, 0, 0, 1, 0, 0, 0⟩, 0)) ∧
    (spin ([] : List (TwistStamped Int)) demoPositions demoAnchors demoDist id 0
        [3, 4] demoState = (demoState, 0)) ∧
    (spin demoCommands demoPositions demoAnchors demoDist id 0 [3]
        demoPlayState).2 ≤ ([3] : List Int).length :=
  ⟨⟨by decide,
      (C9_spin_termination demoCommands demoPositions demoAnchors demoDist id 0).1
        [3] ⟨PAUSE, 0, 0, 1, 0, 0, 0⟩ (by decide)⟩,
    (C9_spin_termination ([] : List (TwistStamped Int)) demoPositions demoAnchors
        demoDist id 0).2.1 rfl [3, 4] demoState,
    (C9_spin_termination demoCommands demoPositions demoAnchors demoDist id 0).2.2
      [3] demoPlayState⟩

/-- C6: per incoming scan, when the service call lock is busy the cloud is
dropped and the playback state is untouched (only the position cursor
settles through the pose lookup that precedes the guard); when the lock is
acquired the point matching service receives the transformed reading and
the current anchor reference cloud, a successful call forwards the derived
control error both to the controller update and to the error reporting
output with no status change, a failed call switches the state machine to
ERROR, and in every acquired case the lock is free again and the cloud is
not counted as dropped when the call returns. -/
theorem C6_correction_pipeline {P C T E R : Type} [Inhabited P] [Inhabited C]
    (positions : List (PoseStamped P)) (anchorPoints : List (AnchorPoint P C))
    (transFromPoseToPose : P → P → T) (composeWithLidar : T → T)
    (applyTransform : T → C → C) (icpCall : C → C → Option R)
    (controlErrorOfTransformation : R → E) (reading : C) (lockHeld : Bool)
    (now : Int) (s : RepeatState) :
    (lockHeld = true →
      updateError positions anchorPoints transFromPoseToPose composeWithLidar
          applyTransform icpCall controlErrorOfTransformation reading lockHeld
          now s =
        ({ s with
            positionCursor :=
              (poseOfTime positions (simTime now s) s.positionCursor).2 },
          ⟨none, none, none, true, true⟩)) ∧
    (lockHeld = false →
      (updateError positions anchorPoints transFromPoseToPose composeWithLidar
          applyTransform icpCall controlErrorOfTransformation reading lockHeld
          now s).2.requestMade =
        some
          (applyTransform
            (composeWithLidar
              (transFromPoseToPose
                (poseOfTime positions (simTime now s) s.positionCursor).1
                (anchorPoints.getD s.anchorPointCursor default).position))
            reading,
          (anchorPoints.getD s.anchorPointCursor default).cloud) ∧
      (∀ resp : R,
        icpCall
            (applyTransform
              (composeWithLidar
                (transFromPoseToPose
                  (poseOfTime positions (simTime now s) s.positionCursor).1
                  (anchorPoints.getD s.anchorPointCursor default).position))
              reading)
            (anchorPoints.getD s.anchorPointCursor default).cloud = some resp →
        (updateError positions anchorPoints transFromPoseToPose composeWithLidar
            applyTransform icpCall controlErrorOfTransformation reading lockHeld
            now s).1 =
          { s with
              positionCursor :=
                (poseOfTime positions (simTime now s) s.positionCursor).2 } ∧
        (updateError positions anchorPoints transFromPoseToPose composeWithLidar
            applyTransform icpCall controlErrorOfTransformation reading lockHeld
            now s).2.controllerErrorUpdate =
          some (controlErrorOfTransformation resp) ∧
        (updateError positions anchorPoints transFromPoseToPose composeWithLidar
            applyTransform icpCall controlErrorOfTransformation reading lockHeld
            now s).2.errorReported = some (controlErrorOfTransformation resp)) ∧
      (icpCall
          (applyTransform
            (composeWithLidar
              (transFromPoseToPose
                (poseOfTime positions (simTime now s) s.positionCursor).1
                (anchorPoints.getD s.anchorPointCursor default).position))
            reading)
          (anchorPoints.getD s.anchorPointCursor default).cloud = none →
        (updateError positions anchorPoints transFromPoseToPose composeWithLidar
            applyTransform icpCall controlErrorOfTransformation reading lockHeld
            now s).1 =
          switchToStatus ERROR now
            { s with
                positionCursor :=
                  (poseOfTime positions (simTime now s) s.positionCursor).2 } ∧
        (updateError positions anchorPoints transFromPoseToPose composeWithLidar
            applyTransform icpCall controlErrorOfTransformation reading lockHeld
            now s).2.controllerErrorUpdate = none ∧
        (updateError positions anchorPoints transFromPoseToPose composeWithLidar
            applyTransform icpCall controlErrorOfTransformation reading lockHeld
            now s).2.errorReported = none) ∧
      (updateError positions anchorPoints transFromPoseToPose composeWithLidar
          applyTransform icpCall controlErrorOfTransformation reading lockHeld
          now s).2.droppedBusy = false ∧
      (updateError positions anchorPoints transFromPoseToPose composeWithLidar
          applyTransform icpCall controlErrorOfTransformation reading lockHeld
          now s).2.lockHeldAtReturn = false) := by
  constructor
  · intro hl
    subst hl
    simp [updateError]
  · intro hl
    subst hl
    cases hicp :
        icpCall
          (applyTransform
            (composeWithLidar
              (transFromPoseToPose
                (poseOfTime positions (simTime now s) s.positionCursor).1
                (anchorPoints.getD s.anchorPointCursor default).position))
            reading)
          (anchorPoints.getD s.anchorPointCursor default).cloud with
    | none =>
      simp only [updateError]
      rw [hicp]
      simp
    | some resp =>
      simp only [updateError]
      rw [hicp]
      simp

theorem C6_correction_pipeline_witness :
    (updateError demoPositions demoAnchors demoTrans demoCompose demoApply
        demoIcpOk demoCtrlErr 5 true 0 demoState =
      ({ demoState with
          positionCursor :=
            (poseOfTime demoPositions (simTime 0 demoState)
              demoState.positionCursor).2 },
        ⟨none, none, none, true, true⟩)) ∧
    ((updateError demoPositions demoAnchors demoTrans demoCompose demoApply
        demoIcpOk demoCtrlErr 5 false 0 demoState).2.controllerErrorUpdate =
      some (demoCtrlErr 42) ∧
      (updateError demoPositions demoAnchors demoTrans demoCompose demoApply
        demoIcpOk demoCtrlErr 5 false 0 demoState).2.errorReported =
      some (demoCtrlErr 42)) ∧
    ((updateError demoPositions demoAnchors demoTrans demoCompose demoApply
        demoIcpFail demoCtrlErr 5 false 0 demoState).1 =
      switchToStatus ERROR 0
        { demoState with
            positionCursor :=
              (poseOfTime demoPositions (simTime 0 demoState)
                demoState.positionCursor).2 }) :=
  ⟨(C6_correction_pipeline demoPositions demoAnchors demoTrans demoCompose
      demoApply demoIcpOk demoCtrlErr 5 true 0 demoState).1 rfl,
    (fun h => ⟨h.2.1, h.2.2⟩)
      (((C6_correction_pipeline demoPositions demoAnchors demoTrans demoCompose
          demoApply demoIcpOk demoCtrlErr 5 false 0 demoState).2 rfl).2.1 42 rfl),
    ((((C6_correction_pipeline demoPositions demoAnchors demoTrans demoCompose
        demoApply demoIcpFail demoCtrlErr 5 false 0 demoState).2 rfl).2.2.1) rfl).1⟩

/-- C4: per cycle of the main loop the anchor cursor advances by at most
one step, advancing exactly when a next anchor exists and the pose at the
current sim time is at least as close (ties advance) to the next anchor
reference pose as to the current one; a nonexistent next anchor (distance
infinity in the source) never lets the cursor advance past the last anchor;
each advance emits the switch notification with the new anchor name and a
timestamp. -/
theorem C4_anchor_advance {V P C : Type} [Inhabited V] [Inhabited P] [Inhabited C]
    (commands : List (TwistStamped V)) (positions : List (PoseStamped P))
    (anchorPoints : List (AnchorPoint P C)) (dist : P → P → Int)
    (correctCommand : V → V) (lookahead now : Int) (s : RepeatState) :
    ((s.anchorPointCursor + 1 < anchorPoints.length ∧
        dist (poseOfTime positions (simTime now s) s.positionCursor).1
            (anchorPoints.getD (s.anchorPointCursor + 1) default).position ≤
          dist (poseOfTime positions (simTime now s) s.positionCursor).1
            (anchorPoints.getD s.anchorPointCursor default).position) →
      (spinCycle commands positions anchorPoints dist correctCommand lookahead now
            s).1.anchorPointCursor = s.anchorPointCursor + 1 ∧
      (spinCycle commands positions anchorPoints dist correctCommand lookahead now
            s).2.apSwitch =
        some ⟨now, (anchorPoints.getD (s.anchorPointCursor + 1) default).name⟩) ∧
    (¬(s.anchorPointCursor + 1 < anchorPoints.length ∧
        dist (poseOfTime positions (simTime now s) s.positionCursor).1
            (anchorPoints.getD (s.anchorPointCursor + 1) default).position ≤
          dist (poseOfTime positions (simTime now s) s.positionCursor).1
            (anchorPoints.getD s.anchorPointCursor default).position) →
      (spinCycle commands positions anchorPoints dist correctCommand lookahead now
            s).1.anchorPointCursor = s.anchorPointCursor ∧
      (spinCycle commands positions anchorPoints dist correctCommand lookahead now
            s).2.apSwitch = none) ∧
    (spinCycle commands positions anchorPoints dist correctCommand lookahead now
          s).1.anchorPointCursor ≤ s.anchorPointCursor + 1 ∧
    (s.anchorPointCursor < anchorPoints.length →
      (spinCycle commands positions anchorPoints dist correctCommand lookahead now
            s).1.anchorPointCursor < anchorPoints.length) := by
  by_cases hnext : s.anchorPointCursor + 1 < anchorPoints.length
  · by_cases hd :
        dist (poseOfTime positions (simTime now s) s.positionCursor).1
            (anchorPoints.getD (s.anchorPointCursor + 1) default).position ≤
          dist (poseOfTime positions (simTime now s) s.positionCursor).1
            (anchorPoints.getD s.anchorPointCursor default).position
    · refine ⟨fun h => ?_, fun h => absurd ⟨hnext, hd⟩ h, ?_, fun hlen => ?_⟩
      · simp_all [spinCycle, poseOfTime_idem]
      · dsimp only [spinCycle]
        exact ite_nat_le_succ _ _
      · dsimp only [spinCycle]
        exact ite_nat_lt _ _ _ (fun _ => by omega) hlen
    · refine ⟨fun h => absurd h.2 hd, fun h => ?_, ?_, fun hlen => ?_⟩
      · simp_all [spinCycle, poseOfTime_idem]
      · dsimp only [spinCycle]
        exact ite_nat_le_succ _ _
      · dsimp only [spinCycle]
        exact ite_nat_lt _ _ _ (fun _ => by omega) hlen
  · refine ⟨fun h => absurd h.1 hnext, fun h => ?_, ?_, fun hlen => ?_⟩
    · simp_all [spinCycle, poseOfTime_idem]
    · dsimp only [spinCycle]
      exact ite_nat_le_succ _ _
    · dsimp only [spinCycle]
      exact ite_nat_lt _ _ _ (fun hc => absurd hc.1 hnext) hlen

theorem C4_anchor_advance_witness :
    ((demoState.anchorPointCursor + 1 < demoAnchors.length ∧
        demoDistZero
            (poseOfTime demoPositions (simTime 0 demoState) demoState.positionCursor).1
            (demoAnchors.getD (demoState.anchorPointCursor + 1) default).position ≤
          demoDistZero
            (poseOfTime demoPositions (simTime 0 demoState) demoState.positionCursor).1
            (demoAnchors.getD demoState.anchorPointCursor default).position) ∧
      (spinCycle demoCommands demoPositions demoAnchors demoDistZero id 0 0
          demoState).1.anchorPointCursor = demoState.anchorPointCursor + 1 ∧
      (spinCycle demoCommands demoPositions demoAnchors demoDistZero id 0 0
          demoState).2.apSwitch =
        some ⟨0, (demoAnchors.getD (demoState.anchorPointCursor + 1) default).name⟩) ∧
    ((spinCycle demoCommands demoPositions demoAnchors1 demoDist id 0 0
        demoState).1.anchorPointCursor = demoState.anchorPointCursor ∧
      (spinCycle demoCommands demoPositions demoAnchors1 demoDist id 0 0
        demoState).2.apSwitch = none) :=
  ⟨⟨⟨by decide, by decide⟩,
      (C4_anchor_advance demoCommands demoPositions demoAnchors demoDistZero id 0 0
        demoState).1 ⟨by decide, by decide⟩⟩,
    (C4_anchor_advance demoCommands demoPositions demoAnchors1 demoDist id 0 0
      demoState).2.1 (fun h => absurd h.1 (by decide))⟩

/-- C8: per cycle of the main loop a corrected command is computed through
the command corrector and published exactly when the status is PLAY (in
PAUSE and ERROR nothing is published and the command cursor is untouched),
while the reference pose at the current sim time is published and the
anchor advance decision is carried out on every cycle whatever the
status. -/
theorem C8_play_gates_commands {V P C : Type} [Inhabited V] [Inhabited P]
    [Inhabited C] (commands : List (TwistStamped V))
    (positions : List (PoseStamped P)) (anchorPoints : List (AnchorPoint P C))
    (dist : P → P → Int) (correctCommand : V → V) (lookahead now : Int)
    (s : RepeatState) :
    ((spinCycle commands positions anchorPoints dist correctCommand lookahead now
        s).2.publishedCommand =
      if s.currentStatus = PLAY then
        some (correctCommand
          (commandOfTime commands lookahead (simTime now s) s.commandCursor).1)
      else none) ∧
    ((spinCycle commands positions anchorPoints dist correctCommand lookahead now
        s).1.commandCursor =
      if s.currentStatus = PLAY then
        (commandOfTime commands lookahead (simTime now s) s.commandCursor).2
      else s.commandCursor) ∧
    ((spinCycle commands positions anchorPoints dist correctCommand lookahead now
        s).2.publishedRefPose =
      (poseOfTime positions (simTime now s) s.positionCursor).1) ∧
    ((spinCycle commands positions anchorPoints dist correctCommand lookahead now
        s).1.positionCursor =
      (poseOfTime positions (simTime now s) s.positionCursor).2) ∧
    ((spinCycle commands positions anchorPoints dist correctCommand lookahead now
        s).1.anchorPointCursor =
      if s.anchorPointCursor + 1 < anchorPoints.length ∧
          dist (poseOfTime positions (simTime now s) s.positionCursor).1
              (anchorPoints.getD (s.anchorPointCursor + 1) default).position ≤
            dist (poseOfTime positions (simTime now s) s.positionCursor).1
              (anchorPoints.getD s.anchorPointCursor default).position then
        s.anchorPointCursor + 1
      else s.anchorPointCursor) := by
  refine ⟨?_, ?_, ?_, ?_, ?_⟩
  · by_cases hst : s.currentStatus = PLAY <;> simp [spinCycle, hst]
  · by_cases hst : s.currentStatus = PLAY <;> simp [spinCycle, hst]
  · by_cases hnext : s.anchorPointCursor + 1 < anchorPoints.length <;>
      simp [spinCycle, hnext, poseOfTime_idem]
  · by_cases hnext : s.anchorPointCursor + 1 < anchorPoints.length <;>
      simp [spinCycle, hnext, poseOfTime_idem]
  · by_cases hnext : s.anchorPointCursor + 1 < anchorPoints.length
    · by_cases hd :
          dist (poseOfTime positions (simTime now s) s.positionCursor).1
              (anchorPoints.getD (s.anchorPointCursor + 1) default).position ≤
            dist (poseOfTime positions (simTime now s) s.positionCursor).1
              (anchorPoints.getD s.anchorPointCursor default).position
      · simp_all [spinCycle, poseOfTime_idem]
      · simp_all [spinCycle, poseOfTime_idem]
    · dsimp only [spinCycle]
      exact ite_and_false_eq _ _ _ hnext _ _
